import Mathlib

/-!
Verification of the ghost-commits scheduling core (`src/background.js`).

The JavaScript service worker is shallowly embedded: `chrome.storage.local`
becomes an explicit `Store` record threaded through every operation, the
module-level mutable `commitLock` and `lastForceCommitTime` become explicit
parameters and results, and everything the environment supplies on a wake-up
(current date, clock time, the `Math.random()` draw, the outcome of the
external `createGhostCommit` network call) is packaged into a `TickEnv`
value.  JavaScript exceptions become an explicit `Option String` /
`Except String` error channel; a thrown error carries its `message` string.
JavaScript numbers used here are integers (counts, minutes, milliseconds)
except the probability computation, which is modelled over `ℚ`.
-/

namespace GhostCommits

/-- Result of the external commit operation `createGhostCommit`
(`{sha, date}`).  The operation itself lives outside the scheduling core
(§6 of the design); each potential invocation's outcome is an input. -/
structure CommitResult where
  sha : String
  date : String
deriving Repr, DecidableEq

/-- The `dailyState` record: `{date: "YYYY-MM-DD", count, firedSlots}`
(`background.js` line 30). -/
structure DailyState where
  date : String
  count : Nat
  firedSlots : List String
deriving Repr, DecidableEq

/-- One entry of the bounded `errorLog` (`background.js` line 53). -/
structure LogEntry where
  message : String
  time : String
deriving Repr, DecidableEq

/-- The slice of `chrome.storage.local` the scheduler touches:
keys `dailyState`, `lastCommit`, `errorLog`.  (The `config` key is read-only
for the scheduler and passed separately.) -/
structure Store where
  dailyState : Option DailyState
  lastCommit : Option CommitResult
  errorLog : List LogEntry
deriving Repr, DecidableEq

/-- The configuration record, restricted to the fields the scheduler's
control flow reads.  `scheduleMode : Option String` models
`config.scheduleMode || "random"`; `commitsPerDay = 0` models a falsy
`config.commitsPerDay` (the source applies `|| 1`).  Credential fields
(`token`, `owner`, `repo`, `email`, `authorName`) are only forwarded to the
external commit operation and are therefore not modelled. -/
structure Config where
  enabled : Bool
  scheduleMode : Option String
  commitsPerDay : Nat
  fixedTimes : List String
deriving Repr, DecidableEq

/-- The fresh record written by `getDailyState` on date rollover
(`background.js` line 30): `{date: today, count: 0, firedSlots: []}`. -/
def freshDaily (today : String) : DailyState :=
  { date := today, count := 0, firedSlots := [] }

/-- `getDailyState()` (`background.js` lines 26-33): return the stored
record when its date is today, otherwise persist and return a fresh zero
record.  Returns the record together with the possibly-updated store. -/
def getDailyState (store : Store) (today : String) : DailyState × Store :=
  match store.dailyState with
  | some ds =>
    if ds.date = today then (ds, store)
    else (freshDaily today, { store with dailyState := some (freshDaily today) })
  | none => (freshDaily today, { store with dailyState := some (freshDaily today) })

/-- `incrementDailyCount(slot)` (`background.js` lines 35-44): re-read the
daily state, bump `count`, push the slot label when one is given, persist. -/
def incrementDailyCount (store : Store) (today : String) (slot : Option String) :
    DailyState × Store :=
  let p := getDailyState store today
  let st := p.1
  let st' : DailyState :=
    { st with
      count := st.count + 1
      firedSlots :=
        match slot with
        | some s => st.firedSlots ++ [s]
        | none => st.firedSlots }
  (st', { p.2 with dailyState := some st' })

/-- `setLastCommitInfo(sha, date)` (`background.js` lines 46-48). -/
def setLastCommitInfo (store : Store) (sha date : String) : Store :=
  { store with lastCommit := some { sha := sha, date := date } }

/-- `logError(message)` (`background.js` lines 50-55): prepend an entry and
truncate the log to 20 entries. -/
def logError (store : Store) (time msg : String) : Store :=
  { store with errorLog := ({ message := msg, time := time } :: store.errorLog).take 20 }

/-- Message of the error thrown by `doCommit` when the lock is held
(`background.js` line 64). -/
def busyMessage : String := "BUSY: a commit is already in progress"

/-- Outcome of one `doCommit` call: the lock state after the call returns,
whether the external commit operation was actually invoked, and the
returned value or the thrown error's message. -/
structure GuardOutcome where
  lock : Bool
  invoked : Bool
  result : Except String CommitResult

/-- `doCommit(config)` (`background.js` lines 62-79): throw `BUSY` when the
lock is already held (without touching the lock or calling out); otherwise
acquire the lock, run the external operation — whose outcome `ext` is an
input of the model — and release the lock in `finally`, on success and on
failure alike. -/
def doCommit (lock : Bool) (ext : Except String CommitResult) : GuardOutcome :=
  if lock then { lock := lock, invoked := false, result := Except.error busyMessage }
  else { lock := false, invoked := true, result := ext }

/-- `ALARM_PERIOD_MINUTES` (`background.js` line 8). -/
def alarmPeriodMinutes : Nat := 5

/-- Whether the character list `needle` occurs at the start of the
character list it is compared against. -/
def charsStartWith : List Char → List Char → Bool
  | [], _ => true
  | _ :: _, [] => false
  | a :: as, b :: bs => a = b && charsStartWith as bs

/-- Whether `needle` occurs as a contiguous run inside the haystack. -/
def charsIncludes : List Char → List Char → Bool
  | [], needle => needle.isEmpty
  | h :: t, needle => charsStartWith needle (h :: t) || charsIncludes t needle

/-- JavaScript `s.includes(sub)` on strings. -/
def strIncludes (s sub : String) : Bool :=
  charsIncludes s.toList sub.toList

/-- Split a character list at every occurrence of `c`
(JavaScript `split`), accumulating the current fragment in `acc`. -/
def splitCharAux (c : Char) : List Char → List Char → List (List Char)
  | [], acc => [acc.reverse]
  | x :: xs, acc =>
    if x = c then acc.reverse :: splitCharAux c xs []
    else splitCharAux c xs (x :: acc)

/-- Decimal digits to a number (JavaScript `Number` on a digit string). -/
def digitsToNat (l : List Char) : Nat :=
  l.foldl (fun n c => n * 10 + (c.toNat - 48)) 0

/-- `slot.split(":").map(Number)` followed by `sh * 60 + sm`
(`background.js` lines 122-123), for well-formed `"HH:MM"` labels. -/
def hhmmToMinutes (s : String) : Nat :=
  match splitCharAux ':' s.toList [] with
  | [h, m] => digitsToNat h * 60 + digitsToNat m
  | _ => 0

/-- The window test of `background.js` line 128:
`nowMins >= slotMins && nowMins < slotMins + ALARM_PERIOD_MINUTES`. -/
def slotDue (nowMins : Nat) (slot : String) : Bool :=
  hhmmToMinutes slot ≤ nowMins && nowMins < hhmmToMinutes slot + alarmPeriodMinutes

/-- Everything the environment supplies to one tick: today's date key, the
local clock (`getHours()` / `getMinutes()`), the `Math.random()` draw, the
outcome of the k-th external commit invocation performed during the tick,
and the ISO timestamp used for error-log entries. -/
structure TickEnv where
  today : String
  hour : Nat
  minute : Nat
  rand : ℚ
  ext : Nat → Except String CommitResult
  logTime : String

/-- Result of running one policy (`maybeCommitRandom` / `maybeCommitFixed`):
the store and lock afterwards, how many times `doCommit` was entered, and
the message of the error propagating out of the policy, if any. -/
structure PolicyOut where
  store : Store
  lock : Bool
  guardCalls : Nat
  thrown : Option String

/-- `maybeCommitRandom(config)` (`background.js` lines 83-108).  Reads the
daily state (rolling the date over if needed), applies the quota check, the
probability computation, the 06-22 window check and the ≥21 force-window
rule, then runs the guard and records the commit.  An error thrown by
`doCommit` (or a failing external call) aborts the tail of the function. -/
def maybeCommitRandom (cfg : Config) (env : TickEnv) (store : Store) (lock : Bool) :
    PolicyOut :=
  let p := getDailyState store env.today
  let st := p.1
  let store1 := p.2
  let target := if cfg.commitsPerDay = 0 then 1 else cfg.commitsPerDay
  if target ≤ st.count then { store := store1, lock := lock, guardCalls := 0, thrown := none }
  else
    let probability : ℚ :=
      ((target : ℚ) - (st.count : ℚ)) / max 1 ((16 * 60 : ℚ) / 5 - (st.count : ℚ))
    if env.hour < 6 ∨ 22 ≤ env.hour then
      { store := store1, lock := lock, guardCalls := 0, thrown := none }
    else if ¬ (21 ≤ env.hour) ∧ probability < env.rand then
      { store := store1, lock := lock, guardCalls := 0, thrown := none }
    else
      let g := doCommit lock (env.ext 0)
      match g.result with
      | Except.error m => { store := store1, lock := g.lock, guardCalls := 1, thrown := some m }
      | Except.ok r =>
        let q := incrementDailyCount store1 env.today none
        { store := setLastCommitInfo q.2 r.sha r.date
          lock := g.lock, guardCalls := 1, thrown := none }

/-- The slot loop of `maybeCommitFixed` (`background.js` lines 118-137).
`snapshot` is the `firedSlots` array read once before the loop; `k` counts
the `doCommit` entries so far (indexing the environment's external
outcomes).  A thrown error aborts the remaining slots. -/
def fixedGo (today : String) (nowMins : Nat) (snapshot : List String)
    (ext : Nat → Except String CommitResult) :
    List String → Store → Bool → Nat → PolicyOut
  | [], store, lock, k => { store := store, lock := lock, guardCalls := k, thrown := none }
  | slot :: rest, store, lock, k =>
    if snapshot.contains slot then fixedGo today nowMins snapshot ext rest store lock k
    else if slotDue nowMins slot then
      let g := doCommit lock (ext k)
      match g.result with
      | Except.error m =>
        { store := store, lock := g.lock, guardCalls := k + 1, thrown := some m }
      | Except.ok r =>
        let q := incrementDailyCount store today (some slot)
        let store' := setLastCommitInfo q.2 r.sha r.date
        fixedGo today nowMins snapshot ext rest store' g.lock (k + 1)
    else fixedGo today nowMins snapshot ext rest store lock k

/-- `maybeCommitFixed(config)` (`background.js` lines 112-138): read the
daily state, take the `firedSlots` snapshot and the current
minutes-since-midnight (`nowHHMM()` formats the clock as `"HH:MM"` and the
loop parses it back, which round-trips to `hour * 60 + minute`), then walk
`config.fixedTimes`. -/
def maybeCommitFixed (cfg : Config) (env : TickEnv) (store : Store) (lock : Bool) :
    PolicyOut :=
  let p := getDailyState store env.today
  let nowMins := env.hour * 60 + env.minute
  fixedGo env.today nowMins p.1.firedSlots env.ext cfg.fixedTimes p.2 lock 0

/-- Policy selection of `tick()` (`background.js` lines 147-152):
`config.scheduleMode || "random"`, fixed mode iff the mode is `"fixed"`. -/
def runPolicy (cfg : Config) (env : TickEnv) (store : Store) (lock : Bool) : PolicyOut :=
  if cfg.scheduleMode.getD "random" = "fixed" then maybeCommitFixed cfg env store lock
  else maybeCommitRandom cfg env store lock

/-- `tick()` (`background.js` lines 142-157): no-op without a config or when
disabled; otherwise run the selected policy and catch any error it throws,
appending it to the error log.  The result type has no error channel: the
dispatcher returns normally on every input. -/
def tick (config? : Option Config) (env : TickEnv) (store : Store) (lock : Bool) :
    Store × Bool :=
  match config? with
  | none => (store, lock)
  | some cfg =>
    if cfg.enabled then
      let out := runPolicy cfg env store lock
      match out.thrown with
      | some m => (logError out.store env.logTime m, out.lock)
      | none => (out.store, out.lock)
    else (store, lock)

/-- A sequence of scheduled ticks under one configuration, threading the
store and the lock. -/
def runTicks (cfg : Config) : List TickEnv → Store × Bool → Store × Bool
  | [], sb => sb
  | e :: es, sb => runTicks cfg es (tick (some cfg) e sb.1 sb.2)

/-- `FORCE_COOLDOWN_MS` (`background.js` line 162). -/
def forceCooldownMs : Int := 4000

/-- `Math.ceil(r / 1000)` on an integer number of milliseconds. -/
def ceilSeconds (r : Int) : Int := -((-r).ediv 1000)

/-- The structured result of `forceCommit()`:
`{ok, sha?, error?, cooldown?}`. -/
structure ForceResult where
  ok : Bool
  sha : Option String
  error : Option String
  cooldown : Option Int
deriving Repr, DecidableEq

/-- Full outcome of a `forceCommit()` call: its returned value plus the
store, the `lastForceCommitTime` module variable, the lock, and the number
of `doCommit` entries. -/
structure ForceOut where
  res : ForceResult
  store : Store
  lastForce : Int
  lock : Bool
  guardCalls : Nat

/-- `forceCommit()` (`background.js` lines 164-199).  `now` is `Date.now()`
at entry and `now2` the `Date.now()` stamped after a successful commit;
`lock1` is the lock state at the first `doCommit` and `lock2` the state
observed at the retry after the 2-second sleep (during which a concurrent
holder may have released it); `ext1`/`ext2` are the external outcomes of
the two potential invocations.  A missing config throws `Not configured`
into the surrounding catch; a first error whose message contains `"BUSY"`
triggers exactly one retry; every caught error is logged and returned as
`{ok: false, error}`. -/
def forceCommit (now now2 lastForce : Int) (config? : Option Config)
    (lock1 lock2 : Bool) (ext1 ext2 : Except String CommitResult)
    (store : Store) (today logTime : String) : ForceOut :=
  let remaining := forceCooldownMs - (now - lastForce)
  if 0 < remaining then
    let c := ceilSeconds remaining
    { res := { ok := false, sha := none
               error := some ("Cooldown: wait " ++ toString c ++ "s")
               cooldown := some c }
      store := store, lastForce := lastForce, lock := lock1, guardCalls := 0 }
  else
    match config? with
    | none =>
      { res := { ok := false, sha := none, error := some "Not configured", cooldown := none }
        store := logError store logTime "Not configured"
        lastForce := lastForce, lock := lock1, guardCalls := 0 }
    | some _cfg =>
      let g1 := doCommit lock1 ext1
      match g1.result with
      | Except.ok r =>
        let q := incrementDailyCount store today (some "force")
        { res := { ok := true, sha := some r.sha, error := none, cooldown := none }
          store := setLastCommitInfo q.2 r.sha r.date
          lastForce := now2, lock := g1.lock, guardCalls := 1 }
      | Except.error m1 =>
        if strIncludes m1 "BUSY" then
          let g2 := doCommit lock2 ext2
          match g2.result with
          | Except.ok r =>
            let q := incrementDailyCount store today (some "force")
            { res := { ok := true, sha := some r.sha, error := none, cooldown := none }
              store := setLastCommitInfo q.2 r.sha r.date
              lastForce := now2, lock := g2.lock, guardCalls := 2 }
          | Except.error m2 =>
            { res := { ok := false, sha := none, error := some m2, cooldown := none }
              store := logError store logTime m2
              lastForce := lastForce, lock := g2.lock, guardCalls := 2 }
        else
          { res := { ok := false, sha := none, error := some m1, cooldown := none }
            store := logError store logTime m1
            lastForce := lastForce, lock := g1.lock, guardCalls := 1 }

/-- Today's count as observed through `getDailyState` (0 after rollover). -/
def countToday (store : Store) (today : String) : Nat :=
  (getDailyState store today).1.count

/-- Every stored daily record's count is bounded by `cpd`. -/
def DailyCapped (cpd : Nat) (store : Store) : Prop :=
  ∀ ds, store.dailyState = some ds → ds.count ≤ cpd

theorem getDailyState_date (store : Store) (t : String) :
    (getDailyState store t).1.date = t := by
  cases h : store.dailyState with
  | none => simp [getDailyState, h, freshDaily]
  | some ds =>
    by_cases hd : ds.date = t
    · simp [getDailyState, h, hd]
    · simp [getDailyState, h, hd, freshDaily]

theorem getDailyState_self (store : Store) (t : String) :
    ((getDailyState store t).2).dailyState = some (getDailyState store t).1 := by
  cases h : store.dailyState with
  | none => simp [getDailyState, h]
  | some ds =>
    by_cases hd : ds.date = t
    · simp [getDailyState, h, hd]
    · simp [getDailyState, h, hd]

theorem getDailyState_eq_of (store : Store) (t : String) (ds : DailyState)
    (h : store.dailyState = some ds) (hd : ds.date = t) :
    getDailyState store t = (ds, store) := by
  simp [getDailyState, h, hd]

theorem getDailyState_count_le (cpd : Nat) (store : Store) (t : String)
    (hc : DailyCapped cpd store) : (getDailyState store t).1.count ≤ cpd := by
  cases h : store.dailyState with
  | none => simp [getDailyState, h, freshDaily]
  | some ds =>
    by_cases hd : ds.date = t
    · simpa [getDailyState, h, hd] using hc ds h
    · simp [getDailyState, h, hd, freshDaily]

theorem getDailyState_capped (cpd : Nat) (store : Store) (t : String)
    (hc : DailyCapped cpd store) : DailyCapped cpd (getDailyState store t).2 := by
  cases h : store.dailyState with
  | none =>
    intro ds hds
    have hds' : freshDaily t = ds := by simpa [getDailyState, h] using hds
    rw [← hds']
    simp [freshDaily]
  | some ds =>
    by_cases hd : ds.date = t
    · simpa [getDailyState, h, hd] using hc
    · intro ds' hds'
      have hds'' : freshDaily t = ds' := by simpa [getDailyState, h, hd] using hds'
      rw [← hds'']
      simp [freshDaily]

theorem incrementDailyCount_some (store : Store) (t : String) (cur : DailyState)
    (s : String) (h : store.dailyState = some cur) (hd : cur.date = t) :
    incrementDailyCount store t (some s) =
      (⟨cur.date, cur.count + 1, cur.firedSlots ++ [s]⟩,
       { store with dailyState := some ⟨cur.date, cur.count + 1, cur.firedSlots ++ [s]⟩ }) := by
  simp [incrementDailyCount, getDailyState_eq_of store t cur h hd]

theorem incrementDailyCount_none (store : Store) (t : String) (cur : DailyState)
    (h : store.dailyState = some cur) (hd : cur.date = t) :
    incrementDailyCount store t none =
      (⟨cur.date, cur.count + 1, cur.firedSlots⟩,
       { store with dailyState := some ⟨cur.date, cur.count + 1, cur.firedSlots⟩ }) := by
  simp [incrementDailyCount, getDailyState_eq_of store t cur h hd]

theorem setLastCommitInfo_dailyState (store : Store) (a b : String) :
    (setLastCommitInfo store a b).dailyState = store.dailyState := rfl

theorem logError_dailyState (store : Store) (t m : String) :
    (logError store t m).dailyState = store.dailyState := rfl

theorem countToday_of (store : Store) (t : String) (ds : DailyState)
    (h : store.dailyState = some ds) (hd : ds.date = t) :
    countToday store t = ds.count := by
  unfold countToday
  rw [getDailyState_eq_of store t ds h hd]

theorem countToday_succ (store1 : Store) (t : String) (cur : DailyState)
    (h : store1.dailyState = some cur) (hd : cur.date = t) (sha d : String) :
    countToday (setLastCommitInfo (incrementDailyCount store1 t none).2 sha d) t
      = cur.count + 1 := by
  rw [incrementDailyCount_none store1 t cur h hd]
  rw [countToday_of _ t ⟨cur.date, cur.count + 1, cur.firedSlots⟩
    (by rw [setLastCommitInfo_dailyState]) hd]

theorem maybeCommitRandom_store_cases (cfg : Config) (env : TickEnv) (store : Store)
    (lock : Bool) :
    (maybeCommitRandom cfg env store lock).store = (getDailyState store env.today).2 ∨
    (¬ (if cfg.commitsPerDay = 0 then 1 else cfg.commitsPerDay)
        ≤ (getDailyState store env.today).1.count ∧
      ∃ r : CommitResult,
        (maybeCommitRandom cfg env store lock).store =
          setLastCommitInfo (incrementDailyCount (getDailyState store env.today).2 env.today
            none).2 r.sha r.date) := by
  simp only [maybeCommitRandom]
  split_ifs <;>
    first
    | exact Or.inl rfl
    | exact Or.inl trivial
    | (cases hdc : (doCommit lock (env.ext 0)).result with
       | error m => simp only [hdc]; first | exact Or.inl rfl | exact Or.inl trivial
       | ok r => simp only [hdc]; exact Or.inr ⟨by assumption, r, rfl⟩)

theorem maybeCommitRandom_capped (cfg : Config) (env : TickEnv) (store : Store) (lock : Bool)
    (h1 : 1 ≤ cfg.commitsPerDay)
    (hc : DailyCapped cfg.commitsPerDay store) :
    DailyCapped cfg.commitsPerDay (maybeCommitRandom cfg env store lock).store := by
  have hself := getDailyState_self store env.today
  have hdate := getDailyState_date store env.today
  have hcap2 := getDailyState_capped cfg.commitsPerDay store env.today hc
  rcases maybeCommitRandom_store_cases cfg env store lock with h | ⟨hq, r, h⟩
  · rw [h]; exact hcap2
  · rw [h]
    intro ds hds
    rw [if_neg (by omega : ¬ cfg.commitsPerDay = 0)] at hq
    simp only [setLastCommitInfo_dailyState,
      incrementDailyCount_none _ _ _ hself hdate, Option.some.injEq] at hds
    subst hds
    show (getDailyState store env.today).1.count + 1 ≤ cfg.commitsPerDay
    omega

theorem maybeCommitRandom_mono (cfg : Config) (env : TickEnv) (store : Store) (lock : Bool) :
    countToday store env.today ≤ countToday (maybeCommitRandom cfg env store lock).store
      env.today := by
  have hself := getDailyState_self store env.today
  have hdate := getDailyState_date store env.today
  have hco : countToday (getDailyState store env.today).2 env.today
      = (getDailyState store env.today).1.count :=
    countToday_of _ _ _ hself hdate
  have hcountT : countToday store env.today = (getDailyState store env.today).1.count := rfl
  rcases maybeCommitRandom_store_cases cfg env store lock with h | ⟨hq, r, h⟩
  · rw [h, hcountT, hco]
  · rw [h, hcountT, countToday_succ _ _ _ hself hdate r.sha r.date]
    omega

theorem fixedGo_mono (today : String) (nowMins : Nat) (snapshot : List String)
    (ext : Nat → Except String CommitResult) (times : List String) :
    ∀ (store : Store) (lock : Bool) (k : Nat) (cur : DailyState),
      store.dailyState = some cur → cur.date = today →
      ∃ cur', (fixedGo today nowMins snapshot ext times store lock k).store.dailyState
          = some cur' ∧ cur'.date = today ∧ cur.count ≤ cur'.count := by
  induction times with
  | nil =>
    intro store lock k cur h hd
    exact ⟨cur, by simpa [fixedGo] using h, hd, Nat.le_refl _⟩
  | cons slot rest ih =>
    intro store lock k cur h hd
    by_cases hcon : snapshot.contains slot = true
    · simp only [fixedGo, if_pos hcon]
      exact ih store lock k cur h hd
    · by_cases hdue : slotDue nowMins slot = true
      · simp only [fixedGo, if_neg hcon, if_pos hdue]
        cases hdc : (doCommit lock (ext k)).result with
        | error m =>
          simp only [hdc]
          exact ⟨cur, h, hd, Nat.le_refl _⟩
        | ok r =>
          simp only [hdc, incrementDailyCount_some store today cur slot h hd]
          obtain ⟨cur', h1, h2, h3⟩ := ih
            (setLastCommitInfo
              { store with dailyState := some ⟨cur.date, cur.count + 1, cur.firedSlots ++ [slot]⟩ }
              r.sha r.date)
            (doCommit lock (ext k)).lock (k + 1)
            ⟨cur.date, cur.count + 1, cur.firedSlots ++ [slot]⟩
            (by rw [setLastCommitInfo_dailyState]) hd
          have h3' : cur.count + 1 ≤ cur'.count := h3
          exact ⟨cur', h1, h2, by omega⟩
      · simp only [fixedGo, if_neg hcon, if_neg hdue]
        exact ih store lock k cur h hd

theorem fixedGo_spec (today : String) (nowMins : Nat) (snapshot : List String)
    (ext : Nat → Except String CommitResult) (hok : ∀ k, ∃ r, ext k = Except.ok r)
    (times : List String) :
    ∀ (store : Store) (k : Nat) (cur : DailyState),
      store.dailyState = some cur → cur.date = today →
      (fixedGo today nowMins snapshot ext times store false k).store.dailyState
          = some ⟨cur.date,
            cur.count
              + (times.filter (fun s => !snapshot.contains s && slotDue nowMins s)).length,
            cur.firedSlots ++ times.filter (fun s => !snapshot.contains s && slotDue nowMins s)⟩ ∧
      (fixedGo today nowMins snapshot ext times store false k).thrown = none ∧
      (fixedGo today nowMins snapshot ext times store false k).guardCalls
          = k + (times.filter (fun s => !snapshot.contains s && slotDue nowMins s)).length ∧
      (fixedGo today nowMins snapshot ext times store false k).lock = false := by
  induction times with
  | nil =>
    intro store k cur h hd
    refine ⟨?_, rfl, rfl, rfl⟩
    simp [fixedGo, h]
  | cons slot rest ih =>
    intro store k cur h hd
    by_cases hcon : snapshot.contains slot = true
    · have hp : (!snapshot.contains slot && slotDue nowMins slot) = false := by
        rw [hcon]; rfl
      have hneg : ¬ ((!snapshot.contains slot && slotDue nowMins slot) = true) := by
        rw [hp]; decide
      have hfil : (slot :: rest).filter (fun s => !snapshot.contains s && slotDue nowMins s)
          = rest.filter (fun s => !snapshot.contains s && slotDue nowMins s) :=
        @List.filter_cons_of_neg String
          (fun s => !snapshot.contains s && slotDue nowMins s) slot rest hneg
      simp only [fixedGo, if_pos hcon, hfil]
      exact ih store k cur h hd
    · by_cases hdue : slotDue nowMins slot = true
      · have hcon' : snapshot.contains slot = false := by
          revert hcon; cases snapshot.contains slot <;> simp
        have hp : (!snapshot.contains slot && slotDue nowMins slot) = true := by
          rw [hcon', hdue]; rfl
        have hfil : (slot :: rest).filter (fun s => !snapshot.contains s && slotDue nowMins s)
            = slot :: rest.filter (fun s => !snapshot.contains s && slotDue nowMins s) :=
          @List.filter_cons_of_pos String
            (fun s => !snapshot.contains s && slotDue nowMins s) slot rest hp
        obtain ⟨r, hr⟩ := hok k
        have hdc : (doCommit false (ext k)).result = Except.ok r := by simp [doCommit, hr]
        have hlk : (doCommit false (ext k)).lock = false := by simp [doCommit]
        simp only [fixedGo, if_neg hcon, if_pos hdue, hdc, hlk,
          incrementDailyCount_some store today cur slot h hd]
        obtain ⟨h1, h2, h3, h4⟩ := ih
          (setLastCommitInfo
            { store with dailyState := some ⟨cur.date, cur.count + 1, cur.firedSlots ++ [slot]⟩ }
            r.sha r.date)
          (k + 1) ⟨cur.date, cur.count + 1, cur.firedSlots ++ [slot]⟩
          (by rw [setLastCommitInfo_dailyState]) hd
        refine ⟨?_, h2, ?_, h4⟩
        · rw [h1, hfil]
          simp only [Option.some.injEq, DailyState.mk.injEq, List.length_cons]
          refine ⟨trivial, by omega, by simp⟩
        · rw [h3, hfil]
          simp only [List.length_cons]
          omega
      · have hdue' : slotDue nowMins slot = false := by
          revert hdue; cases slotDue nowMins slot <;> simp
        have hp : (!snapshot.contains slot && slotDue nowMins slot) = false := by
          rw [hdue']; cases snapshot.contains slot <;> rfl
        have hneg : ¬ ((!snapshot.contains slot && slotDue nowMins slot) = true) := by
          rw [hp]; decide
        have hfil : (slot :: rest).filter (fun s => !snapshot.contains s && slotDue nowMins s)
            = rest.filter (fun s => !snapshot.contains s && slotDue nowMins s) :=
          @List.filter_cons_of_neg String
            (fun s => !snapshot.contains s && slotDue nowMins s) slot rest hneg
        simp only [fixedGo, if_neg hcon, if_neg hdue, hfil]
        exact ih store k cur h hd

theorem maybeCommitFixed_mono (cfg : Config) (env : TickEnv) (store : Store) (lock : Bool) :
    countToday store env.today ≤ countToday (maybeCommitFixed cfg env store lock).store
      env.today := by
  have hself := getDailyState_self store env.today
  have hdate := getDailyState_date store env.today
  obtain ⟨cur', h1, h2, h3⟩ := fixedGo_mono env.today (env.hour * 60 + env.minute)
    (getDailyState store env.today).1.firedSlots env.ext cfg.fixedTimes
    (getDailyState store env.today).2 lock 0 (getDailyState store env.today).1 hself hdate
  have hcT : countToday store env.today = (getDailyState store env.today).1.count := rfl
  rw [hcT, countToday_of (maybeCommitFixed cfg env store lock).store env.today cur' h1 h2]
  exact h3

theorem logError_capped (cpd : Nat) (s : Store) (t m : String)
    (hc : DailyCapped cpd s) : DailyCapped cpd (logError s t m) := by
  intro ds hds
  rw [logError_dailyState] at hds
  exact hc ds hds

theorem tick_capped (cfg : Config) (env : TickEnv) (store : Store) (lock : Bool)
    (h1 : 1 ≤ cfg.commitsPerDay)
    (hm : cfg.scheduleMode.getD "random" ≠ "fixed")
    (hc : DailyCapped cfg.commitsPerDay store) :
    DailyCapped cfg.commitsPerDay (tick (some cfg) env store lock).1 := by
  have hpol : runPolicy cfg env store lock = maybeCommitRandom cfg env store lock := by
    unfold runPolicy
    rw [if_neg hm]
  simp only [tick, hpol]
  by_cases he : cfg.enabled = true
  · rw [if_pos he]
    cases hth : (maybeCommitRandom cfg env store lock).thrown with
    | none =>
      simp only [hth]
      exact maybeCommitRandom_capped cfg env store lock h1 hc
    | some m =>
      simp only [hth]
      exact logError_capped _ _ _ _ (maybeCommitRandom_capped cfg env store lock h1 hc)
  · rw [if_neg he]
    exact hc

theorem runTicks_capped (cfg : Config) (h1 : 1 ≤ cfg.commitsPerDay)
    (hm : cfg.scheduleMode.getD "random" ≠ "fixed") :
    ∀ (envs : List TickEnv) (store : Store) (lock : Bool),
      DailyCapped cfg.commitsPerDay store →
      DailyCapped cfg.commitsPerDay (runTicks cfg envs (store, lock)).1 := by
  intro envs
  induction envs with
  | nil => intro store lock hc; simpa [runTicks] using hc
  | cons e es ih =>
    intro store lock hc
    simp only [runTicks]
    exact ih (tick (some cfg) e store lock).1 (tick (some cfg) e store lock).2
      (tick_capped cfg e store lock h1 hm hc)

/-- Claim C2 (confirmed): the Executor Guard is single-flight.  When the
lock is held, `doCommit` fails with the `BUSY` error without invoking the
external commit operation and without touching the lock; when the lock is
free, the guard invokes the external operation, surfaces its outcome
unchanged (success or failure), and the lock is `false` again on return;
hence a subsequent call always proceeds to invoke the external operation. -/
theorem C2_executor_guard_single_flight (lock : Bool) (e e2 : Except String CommitResult) :
    (lock = true →
      (doCommit lock e).result = Except.error busyMessage ∧
      (doCommit lock e).invoked = false ∧ (doCommit lock e).lock = true) ∧
    (lock = false →
      (doCommit lock e).invoked = true ∧ (doCommit lock e).result = e ∧
      (doCommit lock e).lock = false) ∧
    (doCommit (doCommit false e).lock e2).invoked = true := by
  refine ⟨?_, ?_, rfl⟩
  · intro h
    subst h
    exact ⟨rfl, rfl, rfl⟩
  · intro h
    subst h
    exact ⟨rfl, rfl, rfl⟩

theorem C2_witness :
    (doCommit true (Except.ok ⟨"abc", "d"⟩)).result = Except.error busyMessage ∧
    (doCommit false (Except.ok ⟨"abc", "d"⟩)).lock = false :=
  ⟨((C2_executor_guard_single_flight true (Except.ok ⟨"abc", "d"⟩)
      (Except.ok ⟨"e", "f"⟩)).1 rfl).1,
   ((C2_executor_guard_single_flight false (Except.ok ⟨"abc", "d"⟩)
      (Except.ok ⟨"e", "f"⟩)).2.1 rfl).2.2⟩

/-- Claim C6 (confirmed): reading the daily state when no record is stored,
or when the stored record's date differs from today, persists and returns
the fresh record `{date: today, count: 0, firedSlots: []}`; when the dates
match the stored record is returned with the store unchanged; and a second
read on the same day returns exactly what the first read produced
(idempotent rollover). -/
theorem C6_daily_rollover (store : Store) (today : String) :
    (store.dailyState = none →
      getDailyState store today =
        (⟨today, 0, []⟩, { store with dailyState := some ⟨today, 0, []⟩ })) ∧
    (∀ ds, store.dailyState = some ds → ds.date ≠ today →
      getDailyState store today =
        (⟨today, 0, []⟩, { store with dailyState := some ⟨today, 0, []⟩ })) ∧
    (∀ ds, store.dailyState = some ds → ds.date = today →
      getDailyState store today = (ds, store)) ∧
    getDailyState (getDailyState store today).2 today
      = ((getDailyState store today).1, (getDailyState store today).2) := by
  refine ⟨?_, ?_, ?_, ?_⟩
  · intro h
    simp [getDailyState, h, freshDaily]
  · intro ds h hd
    simp [getDailyState, h, hd, freshDaily]
  · intro ds h hd
    simp [getDailyState, h, hd]
  · exact getDailyState_eq_of _ _ _ (getDailyState_self store today)
      (getDailyState_date store today)

theorem C6_witness :
    (⟨some ⟨"2026-10-10", 5, ["09:00"]⟩, none, []⟩ : Store).dailyState
        = some ⟨"2026-10-10", 5, ["09:00"]⟩ ∧
    ("2026-10-10" : String) ≠ "2026-10-11" ∧
    getDailyState ⟨some ⟨"2026-10-10", 5, ["09:00"]⟩, none, []⟩ "2026-10-11"
      = (⟨"2026-10-11", 0, []⟩, ⟨some ⟨"2026-10-11", 0, []⟩, none, []⟩) :=
  ⟨rfl, by decide,
   (C6_daily_rollover ⟨some ⟨"2026-10-10", 5, ["09:00"]⟩, none, []⟩ "2026-10-11").2.1
     ⟨"2026-10-10", 5, ["09:00"]⟩ rfl (by decide)⟩

/-- Claim C3 (confirmed): every error thrown by the active policy during a
tick is caught by the dispatcher and appended to the error log, and the
dispatcher returns normally — in this embedding `tick` has no error
channel at all (its result is a plain store/lock pair on every input), and
when the policy run ends with a thrown message the dispatcher's result is
exactly the policy's store with the error logged. -/
theorem C3_tick_contains_policy_errors (cfg : Config) (env : TickEnv) (store : Store)
    (lock : Bool) (m : String)
    (he : cfg.enabled = true)
    (hth : (runPolicy cfg env store lock).thrown = some m) :
    tick (some cfg) env store lock =
      (logError (runPolicy cfg env store lock).store env.logTime m,
       (runPolicy cfg env store lock).lock) ∧
    (tick (some cfg) env store lock).1.errorLog =
      (⟨m, env.logTime⟩ :: (runPolicy cfg env store lock).store.errorLog).take 20 := by
  have h1 : tick (some cfg) env store lock =
      (logError (runPolicy cfg env store lock).store env.logTime m,
       (runPolicy cfg env store lock).lock) := by
    simp only [tick, if_pos he, hth]
  exact ⟨h1, by rw [h1]; rfl⟩

theorem C3_witness :
    (⟨true, none, 1, []⟩ : Config).enabled = true ∧
    (runPolicy ⟨true, none, 1, []⟩
        ⟨"2026-10-11", 21, 0, 0, fun _ => Except.error "x", "T"⟩
        ⟨none, none, []⟩ true).thrown = some busyMessage ∧
    (tick (some ⟨true, none, 1, []⟩)
        ⟨"2026-10-11", 21, 0, 0, fun _ => Except.error "x", "T"⟩
        ⟨none, none, []⟩ true).1.errorLog = [⟨busyMessage, "T"⟩] := by
  have h := C3_tick_contains_policy_errors ⟨true, none, 1, []⟩
    ⟨"2026-10-11", 21, 0, 0, fun _ => Except.error "x", "T"⟩
    ⟨none, none, []⟩ true busyMessage rfl rfl
  exact ⟨rfl, rfl, h.2.trans (by decide)⟩

/-- Claim C4 (confirmed): in random mode, on any tick whose local hour lies
in `[21, 22)` while today's count is still below `commitsPerDay`, the
policy invokes the Executor Guard regardless of the value of the random
draw (the `forceWindow` branch bypasses the probability test). -/
theorem C4_force_window_commits (cfg : Config) (env : TickEnv) (store : Store) (lock : Bool)
    (h21 : 21 ≤ env.hour) (h22 : env.hour < 22)
    (hcnt : (getDailyState store env.today).1.count < cfg.commitsPerDay) :
    (maybeCommitRandom cfg env store lock).guardCalls = 1 := by
  have h0 : ¬ cfg.commitsPerDay = 0 := by omega
  have htarget : (if cfg.commitsPerDay = 0 then 1 else cfg.commitsPerDay)
      = cfg.commitsPerDay := if_neg h0
  simp only [maybeCommitRandom, htarget]
  rw [if_neg (show ¬ cfg.commitsPerDay ≤ (getDailyState store env.today).1.count by omega)]
  rw [if_neg (show ¬ (env.hour < 6 ∨ 22 ≤ env.hour) by omega)]
  split_ifs with hd
  · exact (hd.1 h21).elim
  · cases hdc : (doCommit lock (env.ext 0)).result with
    | error m => simp [hdc]
    | ok r => simp [hdc]

theorem C4_witness :
    21 ≤ 21 ∧ 21 < 22 ∧
    (getDailyState ⟨some ⟨"2026-10-11", 1, []⟩, none, []⟩ "2026-10-11").1.count
      < (⟨true, none, 3, []⟩ : Config).commitsPerDay ∧
    (maybeCommitRandom ⟨true, none, 3, []⟩
        ⟨"2026-10-11", 21, 30, 0, fun _ => Except.ok ⟨"a1", "d1"⟩, "t"⟩
        ⟨some ⟨"2026-10-11", 1, []⟩, none, []⟩ false).guardCalls = 1 := by
  have h := C4_force_window_commits ⟨true, none, 3, []⟩
    ⟨"2026-10-11", 21, 30, 0, fun _ => Except.ok ⟨"a1", "d1"⟩, "t"⟩
    ⟨some ⟨"2026-10-11", 1, []⟩, none, []⟩ false (by decide) (by decide) (by decide)
  exact ⟨by decide, by decide, by decide, h⟩

/-- Claim C9 (confirmed): in random mode, when the commit is neither
blocked by the quota nor forced by the window rules (hour in `[6, 21)` and
`count < commitsPerDay`), the probability is exactly
`(commitsPerDay - count) / max 1 (960 / tickInterval - count)` with
`tickInterval = 5`, a draw strictly above it skips the tick (no guard
invocation, store only touched by the rollover read), and a draw less than
or equal to it leads to a commit attempt. -/
theorem C9_random_probability (cfg : Config) (env : TickEnv) (store : Store) (lock : Bool)
    (h6 : 6 ≤ env.hour) (h21 : env.hour < 21)
    (hcnt : (getDailyState store env.today).1.count < cfg.commitsPerDay) :
    (((cfg.commitsPerDay : ℚ) - ((getDailyState store env.today).1.count : ℚ))
          / max 1 ((960 / 5 : ℚ) - ((getDailyState store env.today).1.count : ℚ))
        < env.rand →
      (maybeCommitRandom cfg env store lock).guardCalls = 0 ∧
      (maybeCommitRandom cfg env store lock).store = (getDailyState store env.today).2) ∧
    (env.rand ≤
        ((cfg.commitsPerDay : ℚ) - ((getDailyState store env.today).1.count : ℚ))
          / max 1 ((960 / 5 : ℚ) - ((getDailyState store env.today).1.count : ℚ)) →
      (maybeCommitRandom cfg env store lock).guardCalls = 1) := by
  have h0 : ¬ cfg.commitsPerDay = 0 := by omega
  have htarget : (if cfg.commitsPerDay = 0 then 1 else cfg.commitsPerDay)
      = cfg.commitsPerDay := if_neg h0
  have h960 : (16 * 60 : ℚ) = 960 := by norm_num
  constructor
  · intro hgt
    simp only [maybeCommitRandom, htarget, h960]
    rw [if_neg (show ¬ cfg.commitsPerDay ≤ (getDailyState store env.today).1.count by omega)]
    rw [if_neg (show ¬ (env.hour < 6 ∨ 22 ≤ env.hour) by omega)]
    rw [if_pos ⟨by omega, hgt⟩]
    exact ⟨rfl, rfl⟩
  · intro hle
    simp only [maybeCommitRandom, htarget, h960]
    rw [if_neg (show ¬ cfg.commitsPerDay ≤ (getDailyState store env.today).1.count by omega)]
    rw [if_neg (show ¬ (env.hour < 6 ∨ 22 ≤ env.hour) by omega)]
    rw [if_neg (fun hc => absurd hc.2 (not_lt.mpr hle))]
    cases hdc : (doCommit lock (env.ext 0)).result with
    | error m => simp [hdc]
    | ok r => simp [hdc]

theorem C9_witness :
    6 ≤ 10 ∧ 10 < 21 ∧
    (getDailyState ⟨none, none, []⟩ "2026-10-11").1.count
      < (⟨true, none, 1, []⟩ : Config).commitsPerDay ∧
    (0 : ℚ) ≤ (((⟨true, none, 1, []⟩ : Config).commitsPerDay : ℚ)
        - ((getDailyState ⟨none, none, []⟩ "2026-10-11").1.count : ℚ))
      / max 1 ((960 / 5 : ℚ) - ((getDailyState ⟨none, none, []⟩ "2026-10-11").1.count : ℚ)) ∧
    (maybeCommitRandom ⟨true, none, 1, []⟩
        ⟨"2026-10-11", 10, 0, 0, fun _ => Except.ok ⟨"a1", "d1"⟩, "t"⟩
        ⟨none, none, []⟩ false).guardCalls = 1 := by
  have hc : (getDailyState (⟨none, none, []⟩ : Store) "2026-10-11").1.count = 0 := rfl
  have hcp : (⟨true, none, 1, []⟩ : Config).commitsPerDay = 1 := rfl
  have hle : (0 : ℚ) ≤ (((⟨true, none, 1, []⟩ : Config).commitsPerDay : ℚ)
      - ((getDailyState ⟨none, none, []⟩ "2026-10-11").1.count : ℚ))
      / max 1 ((960 / 5 : ℚ)
        - ((getDailyState ⟨none, none, []⟩ "2026-10-11").1.count : ℚ)) := by
    rw [hc, hcp]
    have hmax : (0 : ℚ) < max 1 ((960 / 5 : ℚ) - ((0 : Nat) : ℚ)) :=
      lt_of_lt_of_le one_pos (le_max_left _ _)
    exact div_nonneg (by norm_num) hmax.le
  have h := (C9_random_probability ⟨true, none, 1, []⟩
    ⟨"2026-10-11", 10, 0, 0, fun _ => Except.ok ⟨"a1", "d1"⟩, "t"⟩
    ⟨none, none, []⟩ false (by decide) (by decide) (by decide)).2 hle
  exact ⟨by decide, by decide, by decide, hle, h⟩

/-- Claim C1 (counterexample): in fixed mode the `commitsPerDay` cap is not
consulted at all.  With `commitsPerDay = 1` and two slots both due in the
same tick (slots `09:00` and `09:01`, clock `09:04`, tick window 5
minutes), a single scheduled tick from a fresh day drives the stored count
to `2 > 1`, refuting the claim as stated for fixed mode. -/
theorem C1_counterexample :
    (⟨true, some "fixed", 1, ["09:00", "09:01"]⟩ : Config).commitsPerDay = 1 ∧
    (tick (some ⟨true, some "fixed", 1, ["09:00", "09:01"]⟩)
        ⟨"2026-10-11", 9, 4, 0, fun _ => Except.ok ⟨"a1", "d1"⟩, "t"⟩
        ⟨none, none, []⟩ false).1.dailyState
      = some ⟨"2026-10-11", 2, ["09:00", "09:01"]⟩ ∧
    ¬ (2 ≤ 1) := by
  refine ⟨rfl, by decide, by decide⟩

/-- Claim C1 (amended): under scheduled operation, `DailyState.count` is
monotonically non-decreasing within a day in both modes; in random mode
(with `commitsPerDay ≥ 1`) every stored count stays bounded by
`commitsPerDay`, both across a single policy run and across any sequence
of scheduled ticks; in fixed mode the `commitsPerDay` bound is not
enforced by the code. -/
theorem C1_amended_capped_monotone (cfg : Config) (env : TickEnv) (store : Store)
    (lock : Bool) (envs : List TickEnv)
    (h1 : 1 ≤ cfg.commitsPerDay) :
    (DailyCapped cfg.commitsPerDay store →
      DailyCapped cfg.commitsPerDay (maybeCommitRandom cfg env store lock).store) ∧
    countToday store env.today
      ≤ countToday (maybeCommitRandom cfg env store lock).store env.today ∧
    countToday store env.today
      ≤ countToday (maybeCommitFixed cfg env store lock).store env.today ∧
    (cfg.scheduleMode.getD "random" ≠ "fixed" →
      DailyCapped cfg.commitsPerDay store →
      DailyCapped cfg.commitsPerDay (runTicks cfg envs (store, lock)).1) :=
  ⟨maybeCommitRandom_capped cfg env store lock h1,
   maybeCommitRandom_mono cfg env store lock,
   maybeCommitFixed_mono cfg env store lock,
   fun hm hc => runTicks_capped cfg h1 hm envs store lock hc⟩

theorem C1_witness :
    1 ≤ (⟨true, none, 1, []⟩ : Config).commitsPerDay ∧
    (⟨true, none, 1, []⟩ : Config).scheduleMode.getD "random" ≠ "fixed" ∧
    DailyCapped 1 (runTicks ⟨true, none, 1, []⟩
      [⟨"2026-10-11", 10, 0, 0, fun _ => Except.ok ⟨"a1", "d1"⟩, "t"⟩]
      (⟨none, none, []⟩, false)).1 :=
  ⟨by decide, by decide,
   (C1_amended_capped_monotone ⟨true, none, 1, []⟩
      ⟨"2026-10-11", 10, 0, 0, fun _ => Except.ok ⟨"a1", "d1"⟩, "t"⟩
      ⟨none, none, []⟩ false
      [⟨"2026-10-11", 10, 0, 0, fun _ => Except.ok ⟨"a1", "d1"⟩, "t"⟩]
      (by decide)).2.2.2 (by decide) (fun ds h => nomatch h)⟩

/-- Claim C5 (counterexample): the loop checks each slot entry against the
`firedSlots` snapshot taken before the loop, so a slot label that occurs
twice in `config.fixedTimes` fires twice within one tick: with
`fixedTimes = ["09:00", "09:00"]` at `09:02` and a fresh day, one policy
run enters the guard twice and records the slot twice — the slot fires
more than once in a calendar day, refuting the at-most-once claim as
stated. -/
theorem C5_counterexample :
    (⟨true, some "fixed", 3, ["09:00", "09:00"]⟩ : Config).fixedTimes
      = ["09:00", "09:00"] ∧
    (maybeCommitFixed ⟨true, some "fixed", 3, ["09:00", "09:00"]⟩
        ⟨"2026-10-11", 9, 2, 0, fun _ => Except.ok ⟨"a1", "d1"⟩, "t"⟩
        ⟨none, none, []⟩ false).guardCalls = 2 ∧
    (maybeCommitFixed ⟨true, some "fixed", 3, ["09:00", "09:00"]⟩
        ⟨"2026-10-11", 9, 2, 0, fun _ => Except.ok ⟨"a1", "d1"⟩, "t"⟩
        ⟨none, none, []⟩ false).store.dailyState
      = some ⟨"2026-10-11", 2, ["09:00", "09:00"]⟩ ∧
    ¬ (List.count "09:00" ["09:00", "09:00"] ≤ 1) := by
  refine ⟨rfl, by decide, by decide, by decide⟩

/-- Claim C5 (amended): on a tick with the lock free and every external
commit succeeding, the fixed-mode policy fires exactly the slot entries
that are not in the `firedSlots` snapshot and whose window
`[slotMinutes, slotMinutes + 5)` contains now-minutes — each fired entry
is appended to `firedSlots` and counted, with no error thrown; provided
each slot label occurs at most once in `config.fixedTimes`, a label
recorded at most once before the tick is still recorded at most once after
it, so a distinct configured slot fires at most once per calendar day. -/
theorem C5_amended_fixed_slots (cfg : Config) (env : TickEnv) (store : Store)
    (hok : ∀ k, ∃ r, env.ext k = Except.ok r) :
    ((maybeCommitFixed cfg env store false).store.dailyState
        = some ⟨env.today,
            (getDailyState store env.today).1.count
              + (cfg.fixedTimes.filter (fun s =>
                  !(getDailyState store env.today).1.firedSlots.contains s &&
                    slotDue (env.hour * 60 + env.minute) s)).length,
            (getDailyState store env.today).1.firedSlots
              ++ cfg.fixedTimes.filter (fun s =>
                  !(getDailyState store env.today).1.firedSlots.contains s &&
                    slotDue (env.hour * 60 + env.minute) s)⟩ ∧
      (maybeCommitFixed cfg env store false).guardCalls
        = (cfg.fixedTimes.filter (fun s =>
            !(getDailyState store env.today).1.firedSlots.contains s &&
              slotDue (env.hour * 60 + env.minute) s)).length ∧
      (maybeCommitFixed cfg env store false).thrown = none) ∧
    (cfg.fixedTimes.Nodup → ∀ s : String,
      ((getDailyState store env.today).1.firedSlots).count s ≤ 1 →
      ((getDailyState store env.today).1.firedSlots
          ++ cfg.fixedTimes.filter (fun s2 =>
              !(getDailyState store env.today).1.firedSlots.contains s2 &&
                slotDue (env.hour * 60 + env.minute) s2)).count s ≤ 1) := by
  have hself := getDailyState_self store env.today
  have hdate := getDailyState_date store env.today
  obtain ⟨h1, h2, h3, h4⟩ := fixedGo_spec env.today (env.hour * 60 + env.minute)
    (getDailyState store env.today).1.firedSlots env.ext hok cfg.fixedTimes
    (getDailyState store env.today).2 0 (getDailyState store env.today).1 hself hdate
  refine ⟨⟨h1.trans (by rw [hdate]), h3.trans (Nat.zero_add _), h2⟩, ?_⟩
  intro hnd s hcnt
  rw [List.count_append]
  by_cases hmem : s ∈ (getDailyState store env.today).1.firedSlots
  · have hzero : (cfg.fixedTimes.filter (fun s2 =>
        !(getDailyState store env.today).1.firedSlots.contains s2 &&
          slotDue (env.hour * 60 + env.minute) s2)).count s = 0 := by
      rw [List.count_eq_zero]
      intro hin
      have hpred := List.of_mem_filter hin
      simp only [Bool.and_eq_true] at hpred
      have hcon : (getDailyState store env.today).1.firedSlots.contains s = true :=
        List.elem_eq_true_of_mem hmem
      have hh := hpred.1
      rw [hcon] at hh
      exact absurd hh (by decide)
    omega
  · have hzero : (getDailyState store env.today).1.firedSlots.count s = 0 :=
      List.count_eq_zero.mpr hmem
    have hnodup : (cfg.fixedTimes.filter (fun s2 =>
        !(getDailyState store env.today).1.firedSlots.contains s2 &&
          slotDue (env.hour * 60 + env.minute) s2)).Nodup :=
      hnd.filter _
    have hle1 := List.nodup_iff_count_le_one.mp hnodup s
    omega

theorem C5_witness :
    (maybeCommitFixed ⟨true, some "fixed", 2, ["09:00", "15:00"]⟩
        ⟨"2026-10-11", 9, 2, 0, fun _ => Except.ok ⟨"a1", "d1"⟩, "t"⟩
        ⟨none, none, []⟩ false).store.dailyState
      = some ⟨"2026-10-11", 1, ["09:00"]⟩ ∧
    (maybeCommitFixed ⟨true, some "fixed", 2, ["09:00", "15:00"]⟩
        ⟨"2026-10-11", 9, 2, 0, fun _ => Except.ok ⟨"a1", "d1"⟩, "t"⟩
        ⟨none, none, []⟩ false).guardCalls = 1 := by
  have h := C5_amended_fixed_slots ⟨true, some "fixed", 2, ["09:00", "15:00"]⟩
    ⟨"2026-10-11", 9, 2, 0, fun _ => Except.ok ⟨"a1", "d1"⟩, "t"⟩
    ⟨none, none, []⟩ (fun k => ⟨⟨"a1", "d1"⟩, rfl⟩)
  exact ⟨h.1.1.trans (by decide), h.1.2.1.trans (by decide)⟩

/-- Claim C7 (confirmed): a `forceCommit` call made less than 4 seconds
after the last successful force commit returns `{ok: false}` with a
strictly positive remaining-seconds cooldown, performs no guard
invocation, and leaves the store and the cooldown timestamp untouched. -/
theorem C7_cooldown_rejection (now now2 lastF : Int) (config? : Option Config)
    (lock1 lock2 : Bool) (e1 e2 : Except String CommitResult) (store : Store)
    (today logTime : String)
    (h0 : 0 ≤ now - lastF) (h4 : now - lastF < 4000) :
    (forceCommit now now2 lastF config? lock1 lock2 e1 e2 store today logTime).res.ok
        = false ∧
    (∃ c, (forceCommit now now2 lastF config? lock1 lock2 e1 e2 store today
        logTime).res.cooldown = some c ∧ 0 < c) ∧
    (forceCommit now now2 lastF config? lock1 lock2 e1 e2 store today logTime).guardCalls
        = 0 ∧
    (forceCommit now now2 lastF config? lock1 lock2 e1 e2 store today logTime).store
        = store ∧
    (forceCommit now now2 lastF config? lock1 lock2 e1 e2 store today logTime).lastForce
        = lastF := by
  have hrem : 0 < forceCooldownMs - (now - lastF) := by
    simp only [forceCooldownMs]
    omega
  have hfc : forceCommit now now2 lastF config? lock1 lock2 e1 e2 store today logTime
      = ⟨⟨false, none,
          some ("Cooldown: wait "
            ++ toString (ceilSeconds (forceCooldownMs - (now - lastF))) ++ "s"),
          some (ceilSeconds (forceCooldownMs - (now - lastF)))⟩,
         store, lastF, lock1, 0⟩ := by
    simp only [forceCommit, if_pos hrem]
  rw [hfc]
  refine ⟨rfl, ⟨ceilSeconds (forceCooldownMs - (now - lastF)), rfl, ?_⟩, rfl, rfl, rfl⟩
  unfold ceilSeconds
  have hneg : (-(forceCooldownMs - (now - lastF))).ediv 1000 < 0 :=
    Int.ediv_neg' (by simp only [forceCooldownMs]; omega) (by norm_num)
  omega

theorem C7_witness :
    (0 : Int) ≤ 1000 - 0 ∧ (1000 : Int) - 0 < 4000 ∧
    ((forceCommit 1000 9000 0 (some ⟨true, none, 1, []⟩) false false
        (Except.ok ⟨"s", "d"⟩) (Except.ok ⟨"s2", "d2"⟩) ⟨none, none, []⟩
        "2026-10-11" "t").res.ok = false ∧
      (∃ c, (forceCommit 1000 9000 0 (some ⟨true, none, 1, []⟩) false false
          (Except.ok ⟨"s", "d"⟩) (Except.ok ⟨"s2", "d2"⟩) ⟨none, none, []⟩
          "2026-10-11" "t").res.cooldown = some c ∧ 0 < c) ∧
      (forceCommit 1000 9000 0 (some ⟨true, none, 1, []⟩) false false
          (Except.ok ⟨"s", "d"⟩) (Except.ok ⟨"s2", "d2"⟩) ⟨none, none, []⟩
          "2026-10-11" "t").guardCalls = 0 ∧
      (forceCommit 1000 9000 0 (some ⟨true, none, 1, []⟩) false false
          (Except.ok ⟨"s", "d"⟩) (Except.ok ⟨"s2", "d2"⟩) ⟨none, none, []⟩
          "2026-10-11" "t").store = ⟨none, none, []⟩ ∧
      (forceCommit 1000 9000 0 (some ⟨true, none, 1, []⟩) false false
          (Except.ok ⟨"s", "d"⟩) (Except.ok ⟨"s2", "d2"⟩) ⟨none, none, []⟩
          "2026-10-11" "t").lastForce = 0) :=
  ⟨by decide, by decide,
   C7_cooldown_rejection 1000 9000 0 (some ⟨true, none, 1, []⟩) false false
     (Except.ok ⟨"s", "d"⟩) (Except.ok ⟨"s2", "d2"⟩) ⟨none, none, []⟩
     "2026-10-11" "t" (by decide) (by decide)⟩

/-- Claim C8 (confirmed): outside the cooldown, if the first guard
invocation fails because the lock is held (a genuine `Busy`), the force
path retries exactly once after the backoff: the guard is entered exactly
twice, a successful retry yields `{ok: true}` with the resulting sha, and
a failing retry (still locked, or external failure) yields `{ok: false}`
with that error's message; a first failure whose message is not a `BUSY`
message is returned as `{ok: false}` with no retry at all. -/
theorem C8_force_retry_on_busy (now now2 lastF : Int) (cfg : Config)
    (lock1 lock2 : Bool) (e1 e2 : Except String CommitResult) (store : Store)
    (today logTime : String)
    (hcd : 4000 ≤ now - lastF) :
    (lock1 = true →
      (forceCommit now now2 lastF (some cfg) lock1 lock2 e1 e2 store today
        logTime).guardCalls = 2) ∧
    (lock1 = true → lock2 = false → ∀ r, e2 = Except.ok r →
      (forceCommit now now2 lastF (some cfg) lock1 lock2 e1 e2 store today
          logTime).res.ok = true ∧
      (forceCommit now now2 lastF (some cfg) lock1 lock2 e1 e2 store today
          logTime).res.sha = some r.sha) ∧
    (lock1 = true → lock2 = true →
      (forceCommit now now2 lastF (some cfg) lock1 lock2 e1 e2 store today
          logTime).res.ok = false ∧
      (forceCommit now now2 lastF (some cfg) lock1 lock2 e1 e2 store today
          logTime).res.error = some busyMessage) ∧
    (lock1 = true → lock2 = false → ∀ m2, e2 = Except.error m2 →
      (forceCommit now now2 lastF (some cfg) lock1 lock2 e1 e2 store today
          logTime).res.ok = false ∧
      (forceCommit now now2 lastF (some cfg) lock1 lock2 e1 e2 store today
          logTime).res.error = some m2) ∧
    (lock1 = false → ∀ m, e1 = Except.error m → strIncludes m "BUSY" = false →
      (forceCommit now now2 lastF (some cfg) lock1 lock2 e1 e2 store today
          logTime).res.ok = false ∧
      (forceCommit now now2 lastF (some cfg) lock1 lock2 e1 e2 store today
          logTime).res.error = some m ∧
      (forceCommit now now2 lastF (some cfg) lock1 lock2 e1 e2 store today
          logTime).guardCalls = 1) := by
  have hneg : ¬ (0 < forceCooldownMs - (now - lastF)) := by
    simp only [forceCooldownMs]
    omega
  have hbusy : strIncludes busyMessage "BUSY" = true := by decide
  refine ⟨?_, ?_, ?_, ?_, ?_⟩
  · intro hl1
    subst hl1
    simp only [forceCommit, if_neg hneg]
    rw [show (doCommit true e1).result = Except.error busyMessage from rfl]
    dsimp only
    rw [if_pos hbusy]
    cases hdc : (doCommit lock2 e2).result with
    | error m => simp [hdc]
    | ok r => simp [hdc]
  · intro hl1 hl2 r hr
    subst hl1; subst hl2; subst hr
    simp only [forceCommit, if_neg hneg]
    rw [show (doCommit true e1).result = Except.error busyMessage from rfl]
    dsimp only
    rw [if_pos hbusy]
    rw [show (doCommit false (Except.ok r)).result = Except.ok r from rfl]
    dsimp only
    exact ⟨rfl, rfl⟩
  · intro hl1 hl2
    subst hl1; subst hl2
    simp only [forceCommit, if_neg hneg]
    rw [show (doCommit true e1).result = Except.error busyMessage from rfl]
    dsimp only
    rw [if_pos hbusy]
    rw [show (doCommit true e2).result = Except.error busyMessage from rfl]
    dsimp only
    exact ⟨rfl, rfl⟩
  · intro hl1 hl2 m2 hm2
    subst hl1; subst hl2; subst hm2
    simp only [forceCommit, if_neg hneg]
    rw [show (doCommit true e1).result = Except.error busyMessage from rfl]
    dsimp only
    rw [if_pos hbusy]
    rw [show (doCommit false (Except.error m2)).result = Except.error m2 from rfl]
    dsimp only
    exact ⟨rfl, rfl⟩
  · intro hl1 m hm hnb
    subst hl1; subst hm
    simp only [forceCommit, if_neg hneg]
    rw [show (doCommit false (Except.error m)).result = Except.error m from rfl]
    dsimp only
    rw [if_neg (show ¬ strIncludes m "BUSY" = true by rw [hnb]; decide)]
    exact ⟨rfl, rfl, rfl⟩

theorem C8_witness :
    (4000 : Int) ≤ 4000 - 0 ∧
    (forceCommit 4000 9000 0 (some ⟨true, none, 1, []⟩) true false
        (Except.ok ⟨"zz", "z"⟩) (Except.ok ⟨"abc", "d"⟩) ⟨none, none, []⟩
        "2026-10-11" "t").guardCalls = 2 ∧
    (forceCommit 4000 9000 0 (some ⟨true, none, 1, []⟩) true false
        (Except.ok ⟨"zz", "z"⟩) (Except.ok ⟨"abc", "d"⟩) ⟨none, none, []⟩
        "2026-10-11" "t").res.ok = true ∧
    (forceCommit 4000 9000 0 (some ⟨true, none, 1, []⟩) true false
        (Except.ok ⟨"zz", "z"⟩) (Except.ok ⟨"abc", "d"⟩) ⟨none, none, []⟩
        "2026-10-11" "t").res.sha = some "abc" := by
  have h := C8_force_retry_on_busy 4000 9000 0 ⟨true, none, 1, []⟩ true false
    (Except.ok ⟨"zz", "z"⟩) (Except.ok ⟨"abc", "d"⟩) ⟨none, none, []⟩
    "2026-10-11" "t" (by decide)
  have h2 := h.2.1 rfl rfl ⟨"abc", "d"⟩ rfl
  exact ⟨by decide, h.1 rfl, h2.1, h2.2⟩

/-- Claim C10 (confirmed): `forceCommit` never consults `config.enabled`.
Outside the cooldown, with any present configuration — including one with
`enabled = false` — the path proceeds to at least one guard invocation;
only a wholly absent configuration fails, with the `Not configured`
error. -/
theorem C10_force_ignores_enabled (now now2 lastF : Int) (cfg : Config)
    (lock1 lock2 : Bool) (e1 e2 : Except String CommitResult) (store : Store)
    (today logTime : String)
    (hcd : 4000 ≤ now - lastF)
    (hdis : cfg.enabled = false) :
    1 ≤ (forceCommit now now2 lastF (some cfg) lock1 lock2 e1 e2 store today
        logTime).guardCalls ∧
    (forceCommit now now2 lastF none lock1 lock2 e1 e2 store today logTime).res
      = ⟨false, none, some "Not configured", none⟩ := by
  have hneg : ¬ (0 < forceCooldownMs - (now - lastF)) := by
    simp only [forceCooldownMs]
    omega
  have h2 : (forceCommit now now2 lastF none lock1 lock2 e1 e2 store today logTime).res
      = ⟨false, none, some "Not configured", none⟩ := by
    simp only [forceCommit, if_neg hneg]
  refine ⟨?_, h2⟩
  simp only [forceCommit, if_neg hneg]
  cases hg : (doCommit lock1 e1).result with
  | ok r => simp [hg]
  | error m =>
    simp only [hg]
    by_cases hb : strIncludes m "BUSY" = true
    · rw [if_pos hb]
      cases hg2 : (doCommit lock2 e2).result with
      | ok r => simp [hg2]
      | error m2 => simp [hg2]
    · rw [if_neg hb]

theorem C10_witness :
    (4000 : Int) ≤ 4000 - 0 ∧
    (⟨false, none, 1, []⟩ : Config).enabled = false ∧
    1 ≤ (forceCommit 4000 9000 0 (some ⟨false, none, 1, []⟩) false false
        (Except.ok ⟨"s", "d"⟩) (Except.ok ⟨"s2", "d2"⟩) ⟨none, none, []⟩
        "2026-10-11" "t").guardCalls ∧
    (forceCommit 4000 9000 0 none false false
        (Except.ok ⟨"s", "d"⟩) (Except.ok ⟨"s2", "d2"⟩) ⟨none, none, []⟩
        "2026-10-11" "t").res = ⟨false, none, some "Not configured", none⟩ := by
  have h := C10_force_ignores_enabled 4000 9000 0 ⟨false, none, 1, []⟩ false false
    (Except.ok ⟨"s", "d"⟩) (Except.ok ⟨"s2", "d2"⟩) ⟨none, none, []⟩
    "2026-10-11" "t" (by decide) rfl
  exact ⟨by decide, rfl, h.1, h.2⟩

end GhostCommits
